import Mathlib

/-! Shallow embedding of `src/tasks/AndroidAppBuilder/Templates/monodroid.c`, the
Android JNI bridge that hosts the Mono runtime.  The three process-wide globals
(`g_bundle_path`, `g_domain`, `g_assembly`, lines 51-53) become a `DroidState`
record that every operation threads explicitly.  Calls into the external Mono /
libc surface (`stat`, `open`, `mmap`, `mono_assembly_open`, `monovm_initialize`,
`mono_jit_init_version`, `mono_jit_exec`, ...) are modelled by an `Engine`
oracle supplying their results, and each operation additionally returns the
list of external calls it performed (`ExtCall`), so that "no engine call happened"
and "the engine was invoked with this argv" are statable.  A C `assert` failure or
an unavoidable crash is modelled as the `Option` result `none`.  C strings are
modelled as `String` (one `Char` per byte); the fixed-size stack buffers and
their `strlcpy`/`strlcat`/`snprintf` truncation behaviour are modelled
faithfully via character-level truncation. -/

set_option maxHeartbeats 1000000
set_option linter.unusedVariables false

/-- Process-wide state of the shim: the three globals declared at lines 51-53 of
monodroid.c (`g_bundle_path`, `g_domain`, `g_assembly`).  Opaque engine handles
(`MonoDomain*`, `MonoAssembly*`) are modelled as `Nat` pointers, and a nullable
field as `Option`, with `none` for the C `NULL`. -/
structure DroidState where
  g_bundle_path : Option String
  g_domain : Option Nat
  g_assembly : Option Nat
deriving DecidableEq

/-- Oracle giving the results of the external Mono / libc calls the shim makes.
`stat_ok p` holds when `stat(p, &buffer) == 0`; `assembly_open p` is the pointer
returned by `mono_assembly_open` (`0` = `NULL`); `open_ok p` holds when
`open(p, O_RDONLY)` yields a non-negative fd; `mmap_ok`/`mmap_ptr` describe the
`mmap` outcome; `monovm_init_rv` is the code returned by `monovm_initialize`;
`jit_init_ptr` is the pointer returned by `mono_jit_init_version` (`0` =
`NULL`); `jit_exec_rv d a argc argv` is the exit code of `mono_jit_exec`;
`malloc_ok` tells whether the bundle-path `malloc` in `initRuntime` succeeds. -/
structure Engine where
  stat_ok : String → Bool
  assembly_open : String → Nat
  open_ok : String → Bool
  mmap_ok : Bool
  mmap_ptr : Nat
  monovm_init_rv : Int
  jit_init_ptr : Nat
  jit_exec_rv : Nat → Nat → Nat → List String → Int
  malloc_ok : Bool

/-- Observable external calls an operation performs, in order. -/
inductive ExtCall where
  | stat (path : String)
  | runtimeconfig_bin (path : String)
  | monovm_init
  | jit_init
  | assembly_open (path : String)
  | open_file (path : String)
  | mmap_call
  | close_fd
  | jit_exec (domain assembly : Nat) (managed_argc : Nat) (managed_argv : List String)
  | jit_cleanup (domain : Nat)
  | free_bundle
  | assembly_close (assembly : Nat)
  | domain_set (domain : Nat)
  | domain_finalize (domain : Nat)
  | setenv (key value : String)
deriving DecidableEq

/-- Truncation of a C string to its first `n` bytes (one `Char` per byte). -/
def strTake (s : String) (n : Nat) : String := String.mk (s.toList.take n)

/-- C `strlcpy(dst, src, size)`: `dst` receives at most `size - 1` characters of
`src` and is NUL-terminated; the model returns the resulting string. -/
def strlcpy (src : String) (size : Nat) : String := strTake src (size - 1)

/-- C `strlcat(dst, src, size)`: when `strlen(dst) < size`, appends at most
`size - 1 - strlen(dst)` characters of `src`; otherwise `dst` is unchanged. -/
def strlcat (dst src : String) (size : Nat) : String :=
  if size ≤ dst.length then dst else dst ++ strTake src (size - 1 - dst.length)

/-- C `snprintf(buf, size, ...)` applied to an already formatted string: at most
`size - 1` characters are stored in `buf`. -/
def snprintfTrunc (size : Nat) (s : String) : String := strTake s (size - 1)

/-- Line 83 of monodroid.c: `int has_extension = len > 3 && name [len - 4] == '.'
&& (!strcmp ("exe", name + (len - 3)) || !strcmp ("dll", name + (len - 3)));`. -/
def mono_droid_has_extension (name : String) : Bool :=
  let len := name.length
  decide (3 < len) && (name.toList.getD (len - 4) (Char.ofNat 0) == '.') &&
    (name.toList.drop (len - 3) == "exe".toList || name.toList.drop (len - 3) == "dll".toList)

/-- Lines 86-89 of monodroid.c: `strlcpy (filename, name, sizeof (filename));`
then, when `!has_extension`, `strlcat (filename, ".dll", sizeof (filename))`;
the buffer `filename` has size 1024. -/
def mono_droid_filename (name : String) : String :=
  let filename := strlcpy name 1024
  if !mono_droid_has_extension name then strlcat filename ".dll" 1024 else filename

/-- Lines 91-95 of monodroid.c: the candidate path is built by `snprintf (path,
sizeof (path) - 1, ...)` (buffer size 1024, so size argument 1023) as
`"%s/%s/%s"` of bundle path, culture and filename when `culture &&
strcmp (culture, "")`, and `"%s/%s"` of bundle path and filename otherwise. -/
def mono_droid_assembly_path (bundle name : String) (culture : Option String) : String :=
  let filename := mono_droid_filename name
  match culture with
  | some cu =>
      if cu = "" then snprintfTrunc 1023 (bundle ++ "/" ++ filename)
      else snprintfTrunc 1023 (bundle ++ "/" ++ cu ++ "/" ++ filename)
  | none => snprintfTrunc 1023 (bundle ++ "/" ++ filename)

/-- Lines 72-104 of monodroid.c, `mono_droid_load_assembly`.  The result is
`none` when an `assert` fires (`assert (g_bundle_path)` at line 75, or
`assert (assembly)` at line 100 when `mono_assembly_open` returns `NULL`);
otherwise `some (handle?, trace)` where `handle?` is the loaded assembly or
`none` for the C `NULL` return at line 103. -/
def mono_droid_load_assembly (eng : Engine) (bundle : Option String) (name : String)
    (culture : Option String) : Option (Option Nat × List ExtCall) :=
  match bundle with
  | none => none
  | some bp =>
    let path := mono_droid_assembly_path bp name culture
    if eng.stat_ok path then
      let assembly := eng.assembly_open path
      if assembly == 0 then none
      else some (some assembly, [ExtCall.stat path, ExtCall.assembly_open path])
    else some (none, [ExtCall.stat path])

/-- Lines 114-147 of monodroid.c, `load_aot_data`.  Returns
`some (returned pointer?, out_handle?, trace)`, or `none` when the
`assert (g_bundle_path)` at line 117 fires.  `*out_handle` is set to `NULL`
first; a failing `open` returns `NULL` with the handle still `NULL`; a failing
`mmap` closes the fd and returns `NULL`; on success the fd is closed and both
the return value and the out-handle are the mapped pointer. -/
def load_aot_data (eng : Engine) (bundle : Option String) (aname : String) :
    Option (Option Nat × Option Nat × List ExtCall) :=
  match bundle with
  | none => none
  | some bp =>
    let path := snprintfTrunc 1023 (bp ++ "/" ++ aname ++ ".aotdata")
    if eng.open_ok path then
      if eng.mmap_ok then
        some (some eng.mmap_ptr, some eng.mmap_ptr, [ExtCall.open_file path, ExtCall.mmap_call, ExtCall.close_fd])
      else
        some (none, none, [ExtCall.open_file path, ExtCall.mmap_call, ExtCall.close_fd])
    else
      some (none, none, [ExtCall.open_file path])

/-- Lines 233-333 of monodroid.c, `mono_droid_runtime_init`.  Reads the global
bundle path (a `NULL` bundle path would crash `chdir`/`strlen`, modelled as
`none`); stats `<bundle>/runtimeconfig.bin` (built into an exactly sized malloc
buffer, no truncation) and registers it when present; records the
`monovm_initialize` code as `rv`; installs the hooks (no modelled effect);
assigns `g_domain` from `mono_jit_init_version`, returning -1 when it is
`NULL`; assigns `g_assembly` from `mono_droid_load_assembly (executable, NULL)`,
returning -1 when that is `NULL`; otherwise returns `rv`. -/
def mono_droid_runtime_init (eng : Engine) (s : DroidState) (executable : String)
    (local_date_time_offset : Int) : Option (Int × DroidState × List ExtCall) :=
  match s.g_bundle_path with
  | none => none
  | some bp =>
    let file_path := bp ++ "/" ++ "runtimeconfig.bin"
    let t_cfg : List ExtCall :=
      ExtCall.stat file_path :: (if eng.stat_ok file_path then [ExtCall.runtimeconfig_bin file_path] else [])
    let rv : Int := eng.monovm_init_rv
    let domain := eng.jit_init_ptr
    if domain == 0 then
      some (-1, { s with g_domain := none }, t_cfg ++ [ExtCall.monovm_init, ExtCall.jit_init])
    else
      let s1 := { s with g_domain := some domain }
      match mono_droid_load_assembly eng s1.g_bundle_path executable none with
      | none => none
      | some (asmres, t_asm) =>
        let s2 := { s1 with g_assembly := asmres }
        match asmres with
        | none => some (-1, s2, t_cfg ++ [ExtCall.monovm_init, ExtCall.jit_init] ++ t_asm)
        | some _ => some (rv, s2, t_cfg ++ [ExtCall.monovm_init, ExtCall.jit_init] ++ t_asm)

/-- Lines 335-355 of monodroid.c, `free_resources`: frees `g_bundle_path` if
non-`NULL` and nulls it; closes `g_assembly` if non-`NULL` and nulls it; sets
and finalizes `g_domain` if non-`NULL` and nulls it. -/
def free_resources (s : DroidState) : DroidState × List ExtCall :=
  let t1 : List ExtCall := if s.g_bundle_path.isSome then [ExtCall.free_bundle] else []
  let t2 : List ExtCall :=
    match s.g_assembly with
    | some a => [ExtCall.assembly_close a]
    | none => []
  let t3 : List ExtCall :=
    match s.g_domain with
    | some d => [ExtCall.domain_set d, ExtCall.domain_finalize d]
    | none => []
  (⟨none, none, none⟩, t1 ++ t2 ++ t3)

/-- Lines 357-367 of monodroid.c, `mono_droid_execute_assembly`: calls
`mono_jit_exec (domain, assembly, managed_argc, managed_argv)`, logs the exit
code, calls `mono_jit_cleanup (domain)` and returns the exit code. -/
def mono_droid_execute_assembly (eng : Engine) (domain assembly : Nat)
    (managed_argc : Nat) (managed_argv : List String) : Int × List ExtCall :=
  let rv := eng.jit_exec_rv domain assembly managed_argc managed_argv
  (rv, [ExtCall.jit_exec domain assembly managed_argc managed_argv, ExtCall.jit_cleanup domain])

/-- Lines 380-393 of monodroid.c, `Java_net_dot_MonoRunner_setEnv`:
`assert (g_domain == NULL)` (modelled as `none` when it fires), then
`setenv (key, val, true)`.  The JNI string acquire/release pairs have no net
effect and are not modelled. -/
def Java_net_dot_MonoRunner_setEnv (s : DroidState) (key value : String) :
    Option (DroidState × List ExtCall) :=
  if s.g_domain.isSome then none
  else some (s, [ExtCall.setenv key value])

/-- Lines 395-415 of monodroid.c, `Java_net_dot_MonoRunner_initRuntime`: copies
the two Java strings into 2048-byte stack buffers (at most 2047 characters kept
by `strncpy_str`), mallocs a copy of the directory as the new `g_bundle_path`
(returning -1 if the malloc fails, with the globals untouched), and calls
`mono_droid_runtime_init`. -/
def Java_net_dot_MonoRunner_initRuntime (eng : Engine) (s : DroidState)
    (j_files_dir j_entryPointLibName : String) (current_local_time : Int) :
    Option (Int × DroidState × List ExtCall) :=
  let file_dir := strTake j_files_dir 2047
  let entryPointLibName := strTake j_entryPointLibName 2047
  if eng.malloc_ok then
    let s1 := { s with g_bundle_path := some file_dir }
    mono_droid_runtime_init eng s1 entryPointLibName current_local_time
  else
    some (-1, s, [])

/-- Lines 417-454 of monodroid.c, `Java_net_dot_MonoRunner_execEntryPoint`:
returns -1 when `g_bundle_path == NULL`, or when `g_domain == NULL ||
g_assembly == NULL`; otherwise builds `managed_argv` with `managed_argv[0] =
g_bundle_path` followed by the caller's arguments (`managed_argc = args_len +
1`), runs `mono_droid_execute_assembly` and returns its exit code.  The Java
argument strings are acquired and released around the call (no net effect). -/
def Java_net_dot_MonoRunner_execEntryPoint (eng : Engine) (s : DroidState)
    (args : List String) : Int × DroidState × List ExtCall :=
  match s.g_bundle_path with
  | none => (-1, s, [])
  | some bp =>
    match s.g_domain, s.g_assembly with
    | some domain, some assembly =>
      let managed_argc := args.length + 1
      let managed_argv := bp :: args
      let r := mono_droid_execute_assembly eng domain assembly managed_argc managed_argv
      (r.1, s, r.2)
    | _, _ => (-1, s, [])

/-- Lines 456-461 of monodroid.c, `Java_net_dot_MonoRunner_freeNativeResources`:
just calls `free_resources`. -/
def Java_net_dot_MonoRunner_freeNativeResources (s : DroidState) : DroidState × List ExtCall :=
  free_resources s

/-- Lines 464-469 of monodroid.c, `invoke_external_native_api`: invokes the
callback when it is non-`NULL`.  The callback is modelled as an optional
element of any type, returned when invoked. -/
def invoke_external_native_api {α : Type} (callback : Option α) : Option α :=
  match callback with
  | some cb => some cb
  | none => none

/-- Engine oracle on which every external call succeeds, used for concrete
instantiations: handle 1 for the domain, handle 2 for assemblies, exit code 42
from `mono_jit_exec`, init code 0 from `monovm_initialize`. -/
def engOk : Engine where
  stat_ok := fun _ => true
  assembly_open := fun _ => 2
  open_ok := fun _ => true
  mmap_ok := true
  mmap_ptr := 5
  monovm_init_rv := 0
  jit_init_ptr := 1
  jit_exec_rv := fun _ _ _ _ => 42
  malloc_ok := true

/-- Engine on which `open` fails for every path (no `.aotdata` files). -/
def engNoAot : Engine := { engOk with open_ok := fun _ => false }

/-- Engine on which `monovm_initialize` itself returns -1 while every later
step succeeds. -/
def engNegInit : Engine := { engOk with monovm_init_rv := -1 }

/-- Engine on which `stat` fails for every path, so no assembly resolves (and
no runtimeconfig.bin is found) while the JIT domain is still created. -/
def engNoAsm : Engine := { engOk with stat_ok := fun _ => false }

/-! ### Helper lemmas -/

theorem strTake_of_le (s : String) (n : Nat) (h : s.length ≤ n) : strTake s n = s := by
  have ht : s.toList.take n = s.toList := List.take_of_length_le h
  unfold strTake
  rw [ht]
  rfl

theorem drop_last4_iff (l : List Char) (c1 c2 c3 c4 : Char) :
    l.drop (l.length - 4) = [c1, c2, c3, c4] ↔
      (3 < l.length ∧ l.getD (l.length - 4) (Char.ofNat 0) = c1 ∧
        l.drop (l.length - 3) = [c2, c3, c4]) := by
  constructor
  · intro h
    have hlen : (l.drop (l.length - 4)).length = 4 := by rw [h]; rfl
    rw [List.length_drop] at hlen
    have h3 : 3 < l.length := by omega
    have hidx : l.length - 4 < l.length := by omega
    have h34 : l.length - 4 + 1 = l.length - 3 := by omega
    rw [List.drop_eq_getElem_cons hidx, h34] at h
    injection h with h1 h2
    exact ⟨h3, by rw [List.getD_eq_getElem l _ hidx]; exact h1, h2⟩
  · rintro ⟨h3, hget, hdrop⟩
    have hidx : l.length - 4 < l.length := by omega
    have h34 : l.length - 4 + 1 = l.length - 3 := by omega
    rw [List.drop_eq_getElem_cons hidx, h34, hdrop]
    rw [List.getD_eq_getElem l _ hidx] at hget
    rw [hget]

theorem suffix4_iff (l : List Char) (c1 c2 c3 c4 : Char) :
    [c1, c2, c3, c4] <:+ l ↔ l.drop (l.length - 4) = [c1, c2, c3, c4] := by
  rw [List.suffix_iff_eq_drop]
  have h4 : [c1, c2, c3, c4].length = 4 := rfl
  rw [h4]
  exact eq_comm

/-- The C extension test at line 83 holds exactly when the name ends in the
four characters `.exe` or `.dll`. -/
theorem has_extension_iff (name : String) :
    mono_droid_has_extension name = true ↔
      (".exe".toList <:+ name.toList ∨ ".dll".toList <:+ name.toList) := by
  have he : ".exe".toList = ['.', 'e', 'x', 'e'] := by decide
  have hd : ".dll".toList = ['.', 'd', 'l', 'l'] := by decide
  have hee : "exe".toList = ['e', 'x', 'e'] := by decide
  have hdd : "dll".toList = ['d', 'l', 'l'] := by decide
  have hlen : name.toList.length = name.length := rfl
  rw [he, hd, suffix4_iff, suffix4_iff, drop_last4_iff, drop_last4_iff, hlen]
  unfold mono_droid_has_extension
  simp only [Bool.and_eq_true, Bool.or_eq_true, decide_eq_true_eq, beq_iff_eq, hee, hdd]
  constructor
  · rintro ⟨⟨h3, hdot⟩, hs | hs⟩
    · exact Or.inl ⟨h3, hdot, hs⟩
    · exact Or.inr ⟨h3, hdot, hs⟩
  · rintro (⟨h3, hdot, hs⟩ | ⟨h3, hdot, hs⟩)
    · exact ⟨⟨h3, hdot⟩, Or.inl hs⟩
    · exact ⟨⟨h3, hdot⟩, Or.inr hs⟩

/-- When the name fits the 1024-byte `filename` buffer, no truncation happens:
the filename is the name itself, with `.dll` appended when there is no
recognized extension. -/
theorem mono_droid_filename_eq (name : String) (h : name.length ≤ 1019) :
    mono_droid_filename name =
      if mono_droid_has_extension name then name else name ++ ".dll" := by
  have h1 : strlcpy name 1024 = name := by
    unfold strlcpy
    exact strTake_of_le name (1024 - 1) (by omega)
  have h4 : (".dll").length = 4 := by decide
  have h2 : strlcat name ".dll" 1024 = name ++ ".dll" := by
    unfold strlcat
    rw [if_neg (by omega)]
    congr 1
    exact strTake_of_le ".dll" (1024 - 1 - name.length) (by omega)
  unfold mono_droid_filename
  rw [h1]
  cases hx : mono_droid_has_extension name <;> simp [hx, h2]

theorem free_resources_fst (s : DroidState) : (free_resources s).1 = ⟨none, none, none⟩ := rfl

/-! ### Claim theorems -/

/-- C1: every call to execute-entry-point made while the bundle path is unset,
or while the domain handle or the entry-assembly handle is null, returns -1
immediately, performs no external call at all (in particular does not invoke
`mono_jit_exec`), and leaves the three global state fields exactly as they
were. -/
theorem execEntryPoint_before_init (eng : Engine) (s : DroidState) (args : List String)
    (h : s.g_bundle_path = none ∨ s.g_domain = none ∨ s.g_assembly = none) :
    Java_net_dot_MonoRunner_execEntryPoint eng s args = (-1, s, []) := by
  obtain ⟨bp, d, a⟩ := s
  cases bp <;> cases d <;> cases a <;>
    simp_all [Java_net_dot_MonoRunner_execEntryPoint]

/-- Witness for C1 at a concrete uninitialized state. -/
theorem execEntryPoint_before_init_witness :
    Java_net_dot_MonoRunner_execEntryPoint engOk ⟨none, none, none⟩ ["a"] =
      (-1, ⟨none, none, none⟩, []) :=
  execEntryPoint_before_init engOk ⟨none, none, none⟩ ["a"] (Or.inl rfl)

/-- C3: release is idempotent.  One call nulls all three globals; the bundle
free, the assembly close and the domain finalize each appear in the external
call trace exactly when the corresponding field was non-null; and a second
consecutive call performs no external call at all and leaves all three fields
null. -/
theorem free_resources_idempotent (s : DroidState) :
    (free_resources s).1 = ⟨none, none, none⟩ ∧
    (ExtCall.free_bundle ∈ (free_resources s).2 ↔ s.g_bundle_path.isSome = true) ∧
    (∀ a, ExtCall.assembly_close a ∈ (free_resources s).2 ↔ s.g_assembly = some a) ∧
    (∀ d, ExtCall.domain_finalize d ∈ (free_resources s).2 ↔ s.g_domain = some d) ∧
    free_resources (free_resources s).1 = (⟨none, none, none⟩, []) := by
  obtain ⟨bp, d, a⟩ := s
  cases bp <;> cases d <;> cases a <;>
    refine ⟨rfl, ?_, fun x => ?_, fun x => ?_, rfl⟩ <;>
    simp [free_resources, eq_comm]

/-- C7: set-environment asserts that no domain exists yet (modelled as the
aborting result `none` when the domain handle is non-null); under the
precondition that the domain handle is null, its only effect is the single
`setenv (key, value)` call, with the global state untouched. -/
theorem setEnv_requires_no_domain (s : DroidState) (key value : String) :
    (s.g_domain.isSome = true → Java_net_dot_MonoRunner_setEnv s key value = none) ∧
    (s.g_domain = none →
      Java_net_dot_MonoRunner_setEnv s key value = some (s, [ExtCall.setenv key value])) := by
  constructor
  · intro h
    unfold Java_net_dot_MonoRunner_setEnv
    rw [if_pos h]
  · intro h
    unfold Java_net_dot_MonoRunner_setEnv
    rw [if_neg (by simp [h])]

/-- Witness for C7: with a live domain the call aborts on the assert. -/
theorem setEnv_requires_no_domain_witness :
    Java_net_dot_MonoRunner_setEnv ⟨none, some 1, none⟩ "MONO_LOG_LEVEL" "debug" = none :=
  (setEnv_requires_no_domain ⟨none, some 1, none⟩ "MONO_LOG_LEVEL" "debug").1 rfl

/-- C8: when the preconditions hold, execute-entry-point invokes
`mono_jit_exec` once with `managed_argc = n + 1` and an argument vector whose
head is the bundle path and whose tail is the n caller-supplied arguments in
order, returns exactly the exit code of that call, and performs the (domain
ending) `mono_jit_cleanup` afterwards. -/
theorem execEntryPoint_invokes_engine (eng : Engine) (s : DroidState) (args : List String)
    (bp : String) (dom assem : Nat) (hbp : s.g_bundle_path = some bp)
    (hd : s.g_domain = some dom) (ha : s.g_assembly = some assem) :
    Java_net_dot_MonoRunner_execEntryPoint eng s args =
      (eng.jit_exec_rv dom assem (args.length + 1) (bp :: args), s,
        [ExtCall.jit_exec dom assem (args.length + 1) (bp :: args),
          ExtCall.jit_cleanup dom]) ∧
    (bp :: args).length = args.length + 1 ∧
    (bp :: args).head? = some bp ∧
    (bp :: args).tail = args := by
  obtain ⟨bp', d', a'⟩ := s
  obtain rfl : bp' = some bp := hbp
  obtain rfl : d' = some dom := hd
  obtain rfl : a' = some assem := ha
  exact ⟨rfl, by simp, rfl, rfl⟩

/-- Witness for C8 at a concrete ready state and two arguments. -/
theorem execEntryPoint_invokes_engine_witness :
    Java_net_dot_MonoRunner_execEntryPoint engOk ⟨some "/data/app", some 1, some 2⟩ ["x", "y"] =
      (engOk.jit_exec_rv 1 2 3 ["/data/app", "x", "y"], ⟨some "/data/app", some 1, some 2⟩,
        [ExtCall.jit_exec 1 2 3 ["/data/app", "x", "y"], ExtCall.jit_cleanup 1]) :=
  (execEntryPoint_invokes_engine engOk ⟨some "/data/app", some 1, some 2⟩ ["x", "y"]
    "/data/app" 1 2 rfl rfl rfl).1

/-- C10: execute-entry-point called on the state release leaves behind returns
-1 with no external call and no state change, because release nulls all three
globals and the precondition checks reject that state. -/
theorem execEntryPoint_after_release (eng : Engine) (s : DroidState) (args : List String) :
    Java_net_dot_MonoRunner_execEntryPoint eng (free_resources s).1 args =
      (-1, (free_resources s).1, []) := rfl

/-- C2: the candidate file path of assembly resolution (for inputs that fit the
1024-byte stack buffers): `.dll` is appended exactly when the name ends in
neither `.dll` nor `.exe`; with no culture (null, or empty string) the
candidate is `<bundle>/<filename>`, and with a non-empty culture `c` it is
`<bundle>/<c>/<filename>`; in particular `"App"` against `/data/app` with no
culture gives `/data/app/App.dll`, `"App.exe"` gives `/data/app/App.exe`
unchanged, and `"App"` with culture `"fr"` gives `/data/app/fr/App.dll`. -/
theorem assembly_resolution_candidate_path (bundle name c : String)
    (hb : bundle.length + c.length + name.length ≤ 1000) :
    (mono_droid_assembly_path bundle name none =
      bundle ++ "/" ++
        (if ".dll".toList <:+ name.toList ∨ ".exe".toList <:+ name.toList then name
          else name ++ ".dll")) ∧
    (mono_droid_assembly_path bundle name (some "") =
      bundle ++ "/" ++
        (if ".dll".toList <:+ name.toList ∨ ".exe".toList <:+ name.toList then name
          else name ++ ".dll")) ∧
    (c ≠ "" → mono_droid_assembly_path bundle name (some c) =
      bundle ++ "/" ++ c ++ "/" ++
        (if ".dll".toList <:+ name.toList ∨ ".exe".toList <:+ name.toList then name
          else name ++ ".dll")) ∧
    mono_droid_assembly_path "/data/app" "App" none = "/data/app/App.dll" ∧
    mono_droid_assembly_path "/data/app" "App.exe" none = "/data/app/App.exe" ∧
    mono_droid_assembly_path "/data/app" "App" (some "fr") = "/data/app/fr/App.dll" := by
  have hfn : mono_droid_filename name =
      if mono_droid_has_extension name then name else name ++ ".dll" :=
    mono_droid_filename_eq name (by omega)
  have h4 : (".dll").length = 4 := by decide
  have h1 : ("/").length = 1 := by decide
  have hFl : (mono_droid_filename name).length ≤ name.length + 4 := by
    rw [hfn]
    split
    · omega
    · rw [String.length_append]; omega
  have hif : (if mono_droid_has_extension name then name else name ++ ".dll") =
      (if ".dll".toList <:+ name.toList ∨ ".exe".toList <:+ name.toList then name
        else name ++ ".dll") := by
    by_cases hx : ".dll".toList <:+ name.toList ∨ ".exe".toList <:+ name.toList
    · rw [if_pos ((has_extension_iff name).mpr (Or.comm.mp hx)), if_pos hx]
    · rw [if_neg (fun hh => hx (Or.comm.mp ((has_extension_iff name).mp hh))), if_neg hx]
  refine ⟨?_, ?_, fun hc => ?_, by decide, by decide, by decide⟩
  · simp only [mono_droid_assembly_path, snprintfTrunc]
    rw [strTake_of_le _ _ (by simp only [String.length_append]; omega), hfn, hif]
  · simp only [mono_droid_assembly_path, snprintfTrunc]
    rw [if_pos trivial, strTake_of_le _ _ (by simp only [String.length_append]; omega), hfn, hif]
  · simp only [mono_droid_assembly_path, snprintfTrunc]
    rw [if_neg hc, strTake_of_le _ _ (by simp only [String.length_append]; omega), hfn, hif]

/-- Witness for C2 at the spec's concrete inputs. -/
theorem assembly_resolution_candidate_path_witness :
    mono_droid_assembly_path "/data/app" "App" (some "fr") =
      "/data/app" ++ "/" ++ "fr" ++ "/" ++
        (if ".dll".toList <:+ "App".toList ∨ ".exe".toList <:+ "App".toList then "App"
          else "App" ++ ".dll") :=
  (assembly_resolution_candidate_path "/data/app" "App" "fr" (by decide)).2.2.1
    (by decide)

/-- C9: the extension check is case-sensitive and looks at the final four
characters: for every name shorter than 4 characters, and every name whose
last four characters are not exactly ".dll" or ".exe" in lowercase, ".dll" is
appended; in particular "App.DLL" yields the filename "App.DLL.dll" and "dll"
yields "dll.dll". -/
theorem filename_append_case_sensitive (name : String)
    (hlen : name.length ≤ 1019)
    (h : name.length < 4 ∨ (name.toList.drop (name.length - 4) ≠ ".dll".toList ∧
      name.toList.drop (name.length - 4) ≠ ".exe".toList)) :
    mono_droid_filename name = name ++ ".dll" ∧
    mono_droid_filename "App.DLL" = "App.DLL.dll" ∧
    mono_droid_filename "dll" = "dll.dll" := by
  refine ⟨?_, by decide, by decide⟩
  have hd : ".dll".toList = ['.', 'd', 'l', 'l'] := by decide
  have he : ".exe".toList = ['.', 'e', 'x', 'e'] := by decide
  have hlist : name.toList.length = name.length := rfl
  have hfalse : mono_droid_has_extension name = false := by
    rw [Bool.eq_false_iff]
    intro htrue
    rcases (has_extension_iff name).mp htrue with hs | hs
    · rw [he, suffix4_iff, hlist] at hs
      rcases h with hlt | ⟨_, hne⟩
      · have hlen4 : (name.toList.drop (name.length - 4)).length = 4 := by rw [hs]; rfl
        rw [List.length_drop, hlist] at hlen4
        omega
      · exact hne (by rw [hs, he])
    · rw [hd, suffix4_iff, hlist] at hs
      rcases h with hlt | ⟨hne, _⟩
      · have hlen4 : (name.toList.drop (name.length - 4)).length = 4 := by rw [hs]; rfl
        rw [List.length_drop, hlist] at hlen4
        omega
      · exact hne (by rw [hs, hd])
  rw [mono_droid_filename_eq name hlen, if_neg (by simp [hfalse])]

/-- Witness for C9 at the concrete wrong-case name "App.DLL". -/
theorem filename_append_case_sensitive_witness :
    mono_droid_filename "App.DLL" = "App.DLL" ++ ".dll" :=
  (filename_append_case_sensitive "App.DLL" (by decide) (Or.inr (by decide))).1

/-- C5: when the `<assembly>.aotdata` file is absent (the `open` fails), the
AOT-data loader returns null with the out-handle also null, after only the
failed `open` and with no assert/abort; moreover the result of runtime
initialization does not depend on the engine's AOT fields at all, so the
outcome cannot change initialization's result. -/
theorem load_aot_data_missing (eng : Engine) (bp aname : String) (s : DroidState)
    (exe : String) (t : Int)
    (hopen : eng.open_ok (snprintfTrunc 1023 (bp ++ "/" ++ aname ++ ".aotdata")) = false) :
    load_aot_data eng (some bp) aname =
      some (none, none,
        [ExtCall.open_file (snprintfTrunc 1023 (bp ++ "/" ++ aname ++ ".aotdata"))]) ∧
    (∀ f b p, mono_droid_runtime_init { eng with open_ok := f, mmap_ok := b, mmap_ptr := p }
        s exe t = mono_droid_runtime_init eng s exe t) := by
  constructor
  · simp only [load_aot_data]
    rw [hopen]
    simp
  · intro f b p
    cases eng
    rfl

/-- Witness for C5 with an engine whose `open` always fails. -/
theorem load_aot_data_missing_witness :
    load_aot_data engNoAot (some "/data/app") "App" =
      some (none, none,
        [ExtCall.open_file (snprintfTrunc 1023 ("/data/app" ++ "/" ++ "App" ++ ".aotdata"))]) :=
  (load_aot_data_missing engNoAot "/data/app" "App" ⟨none, none, none⟩ "App" 0 rfl).1

/-- C4 (amended): initialization returns -1 when domain creation yields a null
handle, and -1 when the entry assembly fails to resolve; in the remaining
cases it returns the code produced by `monovm_initialize` — which the shim
does not constrain and which may itself be -1, so a -1 return does not imply
that the domain or the assembly step failed. -/
theorem runtime_init_result (eng : Engine) (s : DroidState) (bp executable : String)
    (t : Int) (hbp : s.g_bundle_path = some bp) :
    (eng.jit_init_ptr = 0 →
      (mono_droid_runtime_init eng s executable t).map (fun r => r.1) = some (-1)) ∧
    (eng.jit_init_ptr ≠ 0 →
      eng.stat_ok (mono_droid_assembly_path bp executable none) = false →
      (mono_droid_runtime_init eng s executable t).map (fun r => r.1) = some (-1)) ∧
    (eng.jit_init_ptr ≠ 0 →
      eng.stat_ok (mono_droid_assembly_path bp executable none) = true →
      eng.assembly_open (mono_droid_assembly_path bp executable none) ≠ 0 →
      (mono_droid_runtime_init eng s executable t).map (fun r => r.1) =
        some eng.monovm_init_rv) := by
  obtain ⟨bp', d0, a0⟩ := s
  obtain rfl : bp' = some bp := hbp
  refine ⟨fun h0 => ?_, fun hnz hstat => ?_, fun hnz hstat hopen => ?_⟩
  · simp [mono_droid_runtime_init, h0]
  · simp [mono_droid_runtime_init, mono_droid_load_assembly, hstat, hnz]
  · simp [mono_droid_runtime_init, mono_droid_load_assembly, hstat, hnz, hopen]

/-- Witness for C4 on the all-succeeding engine: the init code 0 is returned. -/
theorem runtime_init_result_witness :
    (mono_droid_runtime_init engOk ⟨some "/data/app", none, none⟩ "App" 0).map
        (fun r => r.1) = some engOk.monovm_init_rv :=
  (runtime_init_result engOk ⟨some "/data/app", none, none⟩ "/data/app" "App" 0 rfl).2.2
    (by decide) rfl (by decide)

/-- C4 counterexample: with `monovm_initialize` returning -1 and every later
step succeeding, initialization returns -1 although the domain was created
(handle 1, non-null) and the entry assembly was loaded (handle 2, non-null),
refuting the claim's "returns -1 exactly when" those steps fail. -/
theorem runtime_init_neg_one_counterexample :
    (mono_droid_runtime_init engNegInit ⟨some "/data/app", none, none⟩ "App" 0).map
        (fun r => (r.1, r.2.1.g_domain, r.2.1.g_assembly)) =
      some (-1, some 1, some 2) := by decide

theorem runtime_init_bundle (eng : Engine) (s : DroidState) (exe : String) (t : Int)
    (r : Int × DroidState × List ExtCall)
    (h : mono_droid_runtime_init eng s exe t = some r) :
    r.2.1.g_bundle_path = s.g_bundle_path := by
  obtain ⟨bp, d0, a0⟩ := s
  cases bp with
  | none => simp [mono_droid_runtime_init] at h
  | some v =>
    simp only [mono_droid_runtime_init] at h
    split at h
    · cases h
      rfl
    · rcases hl : mono_droid_load_assembly eng (some v) exe none with _ | ⟨asmres, tasm⟩
      · rw [hl] at h
        cases h
      · rw [hl] at h
        cases asmres with
        | none =>
          cases h
          rfl
        | some a =>
          cases h
          rfl

/-- C6 (amended): the lifecycle invariant that actually holds.  On a successful
initialization the domain and assembly handles are set together (both non-null
afterwards), and release nulls them together; the bundle path is set before
either of them can become non-null (any initialization outcome with a non-null
domain or assembly has a non-null bundle path).  However, an initialization
that fails at the entry-assembly step leaves the domain handle non-null with
the assembly handle null, so after a failed operation the pair need not be
both-null-or-both-non-null. -/
theorem lifecycle_invariant_amended (eng : Engine) (s : DroidState) (bp exe fd lib : String)
    (t u : Int) (r : Int × DroidState × List ExtCall) :
    (s.g_bundle_path = some bp → eng.jit_init_ptr ≠ 0 →
      eng.stat_ok (mono_droid_assembly_path bp exe none) = true →
      eng.assembly_open (mono_droid_assembly_path bp exe none) ≠ 0 →
      (mono_droid_runtime_init eng s exe t).map
          (fun r => (r.2.1.g_domain.isSome, r.2.1.g_assembly.isSome)) = some (true, true)) ∧
    ((free_resources s).1.g_domain = none ∧ (free_resources s).1.g_assembly = none) ∧
    (Java_net_dot_MonoRunner_initRuntime eng ⟨none, none, none⟩ fd lib u = some r →
      (r.2.1.g_domain.isSome = true ∨ r.2.1.g_assembly.isSome = true) →
      r.2.1.g_bundle_path.isSome = true) := by
  refine ⟨fun hbp hnz hstat hopen => ?_, ⟨rfl, rfl⟩, fun hr hsome => ?_⟩
  · obtain ⟨bp', d0, a0⟩ := s
    obtain rfl : bp' = some bp := hbp
    simp [mono_droid_runtime_init, mono_droid_load_assembly, hstat, hnz, hopen]
  · simp only [Java_net_dot_MonoRunner_initRuntime] at hr
    by_cases hm : eng.malloc_ok
    · rw [if_pos hm] at hr
      have hb := runtime_init_bundle eng _ _ _ r hr
      rw [hb]
      rfl
    · rw [if_neg hm] at hr
      cases hr
      rcases hsome with hx | hx <;> simp at hx

/-- Witness for C6 (amended) on the all-succeeding engine. -/
theorem lifecycle_invariant_amended_witness :
    (mono_droid_runtime_init engOk ⟨some "/data/app", none, none⟩ "App" 0).map
        (fun r => (r.2.1.g_domain.isSome, r.2.1.g_assembly.isSome)) = some (true, true) :=
  (lifecycle_invariant_amended engOk ⟨some "/data/app", none, none⟩ "/data/app" "App" "x" "y"
    0 0 (-1, ⟨none, none, none⟩, [])).1 rfl (by decide) rfl (by decide)

/-- C6 counterexample: a failed entry-assembly load right after a successful
domain creation completes the operation with the domain handle non-null and
the assembly handle null, so the two are neither both null nor both
non-null. -/
theorem lifecycle_pair_counterexample :
    (Java_net_dot_MonoRunner_initRuntime engNoAsm ⟨none, none, none⟩ "/data/app" "App" 0).map
        (fun r => (r.2.1.g_domain.isSome, r.2.1.g_assembly.isSome)) = some (true, false) := by
  decide
